import Mathlib

/-!
Shallow embedding of the model layer of django-addressbook
(addressbook/models.py), with proofs about party resolution
(Party.child), the unified listing (PartyManager.children), the derived
sort/search strings, and timestamp maintenance (DateMixin.save).

Embedding conventions:
* Nullable text columns (blank=True, null=True) are Option String;
  required columns are String.
* Python's ' '.join(frags) raises TypeError when a fragment is None; it
  is embedded as an Option String valued join that is none exactly when
  some fragment is none.
* ORM accesses that can raise DoesNotExist, and derived-string
  computations that can raise TypeError, are embedded in Except PyErr.
* datetime.now() instants are abstract Nat values supplied by the
  caller; the primary key auto-assigned on INSERT is a caller-supplied
  fresh id.
* Python's case-sensitive str comparison is embedded as a structurally
  recursive lexicographic comparison on code points (strLe below).
-/

namespace Addressbook

/-- Python-level failures the model code can raise. -/
inductive PyErr where
  /-- Django DoesNotExist, raised by an absent related-object access. -/
  | doesNotExist : PyErr
  /-- Python TypeError, raised e.g. by ' '.join over a None fragment. -/
  | typeError : PyErr
deriving DecidableEq, Repr

/-- Join a list of (already non-None) strings with single spaces, as
' '.join does once every fragment is known to be a str. -/
def joinSpace : List String → String
  | [] => ""
  | [s] => s
  | s :: rest => s ++ " " ++ joinSpace rest

/-- Check the fragments handed to ' '.join: the call raises TypeError
(modelled as none) when any fragment is None. -/
def seqFrags : List (Option String) → Option (List String)
  | [] => some []
  | none :: _ => none
  | some s :: rest => (seqFrags rest).map (s :: ·)

/-- Embedding of Python ' '.join(frags) over possibly-None fragments. -/
def joinWithSpace (frags : List (Option String)) : Option String :=
  (seqFrags frags).map joinSpace

/-- Lexicographic comparison of code-point lists, the order Python uses
for case-sensitive str comparison. -/
def charListLe : List Char → List Char → Bool
  | [], _ => true
  | _ :: _, [] => false
  | a :: as, b :: bs =>
    if a.toNat < b.toNat then true
    else if b.toNat < a.toNat then false
    else charListLe as bs

/-- Case-sensitive lexicographic string comparison (Python str order). -/
def strLe (a b : String) : Bool := charListLe a.data b.data

/-- The columns contributed by DateMixin, plus the row's primary key.
date_added has default=datetime.now, so a fresh instance carries its
creation instant; date_modified is nullable. -/
structure DateMixinRecord where
  id : Option Nat
  date_added : Nat
  date_modified : Option Nat
deriving DecidableEq, Repr

/-- Instantiating a model object: no primary key yet, date_added takes
its default (the creation instant), date_modified stays null. -/
def DateMixin.new (creationTime : Nat) : DateMixinRecord :=
  { id := none, date_added := creationTime, date_modified := none }

/-- Python truthiness of self.id: None and 0 are falsy. -/
def DateMixin.truthyId : Option Nat → Bool
  | none => false
  | some n => n != 0

/-- super().save() of the Django base model: INSERT assigns a fresh
primary key when the record has none; otherwise the row is written as
is. -/
def superSave (r : DateMixinRecord) (freshId : Nat) : DateMixinRecord :=
  match r.id with
  | none => { r with id := some freshId }
  | some _ => r

/-- DateMixin.save: when self.id is truthy, re-assign date_added to
itself (a no-op, kept from the source) and set date_modified to now;
then super().save(). -/
def DateMixin.save (r : DateMixinRecord) (now freshId : Nat) : DateMixinRecord :=
  superSave
    (if DateMixin.truthyId r.id then
      { r with date_added := r.date_added, date_modified := some now }
    else r) freshId

/-- Modelled from the spec (§4.4), for comparison only: the definitive
"already exists in storage" test the spec demands for the
update-vs-insert decision, with storage as the list of persisted
primary keys. The source's DateMixin.save instead tests Python
truthiness of self.id. -/
def specExistsInStorage (store : List Nat) (r : DateMixinRecord) : Bool :=
  match r.id with
  | none => false
  | some i => store.contains i

/-- StreetAddress payload columns (all nullable). The generic owner
reference and the timestamp columns play no role in search_index and
are carried by the mixin embeddings above. -/
structure StreetAddress where
  address : Option String
  city : Option String
  state : Option String
  zip : Option String
  type : Option String
deriving DecidableEq, Repr

/-- StreetAddress.search_index: ' '.join([address, city, state, zip]). -/
def StreetAddress.search_index (s : StreetAddress) : Option String :=
  joinWithSpace [s.address, s.city, s.state, s.zip]

/-- Organization row: shares its primary key with a Party row via the
multi-table-inheritance parent link party_ptr; name is required. -/
structure Organization where
  party_ptr : Nat
  name : String
deriving DecidableEq, Repr

/-- Organization.search_index: the name. -/
def Organization.search_index (o : Organization) : String := o.name

/-- Organization.sort_name: the name. -/
def Organization.sort_name (o : Organization) : String := o.name

/-- Person row: shares its primary key with a Party row via party_ptr.
first_name is required; middle_name and last_name are nullable;
organization is an optional foreign key. -/
structure Person where
  party_ptr : Nat
  organization : Option Nat
  title : String
  first_name : String
  middle_name : Option String
  last_name : Option String
deriving DecidableEq, Repr

/-- Person.search_index: ' '.join([first_name, middle_name, last_name]). -/
def Person.search_index (p : Person) : Option String :=
  joinWithSpace [some p.first_name, p.middle_name, p.last_name]

/-- Person.sort_name: ' '.join([first_name, middle_name, last_name]). -/
def Person.sort_name (p : Person) : Option String :=
  joinWithSpace [some p.first_name, p.middle_name, p.last_name]

/-- A resolved Party: the concrete model instance Party.child returns. -/
inductive PartyChild where
  | person : Person → PartyChild
  | organization : Organization → PartyChild
deriving DecidableEq, Repr

/-- The sort_name of a resolved party, as read by the sort key lambda
in PartyManager.children. -/
def PartyChild.sort_name : PartyChild → Option String
  | .person p => p.sort_name
  | .organization o => some o.sort_name

/-- The relational state the Party queries run against: the Party table
(its primary keys) and the two child tables of the multi-table
inheritance, each row sharing its party_ptr key with a Party row. -/
structure DB where
  parties : List Nat
  persons : List Person
  organizations : List Organization

/-- The one-to-one descriptor self.person: the Person row sharing the
Party's primary key, if any. -/
def DB.findPerson (db : DB) (pid : Nat) : Option Person :=
  db.persons.find? (fun p => p.party_ptr == pid)

/-- The one-to-one descriptor self.organization: the Organization row
sharing the Party's primary key, if any. -/
def DB.findOrganization (db : DB) (pid : Nat) : Option Organization :=
  db.organizations.find? (fun o => o.party_ptr == pid)

/-- Party.child: try self.person; on Person.DoesNotExist return
self.organization. The self.organization access itself raises
Organization.DoesNotExist when no row matches, and that exception
escapes uncaught. -/
def Party.child (db : DB) (pid : Nat) : Except PyErr PartyChild :=
  match db.findPerson pid with
  | some p => .ok (.person p)
  | none =>
    match db.findOrganization pid with
    | some o => .ok (.organization o)
    | none => .error .doesNotExist

/-- Sequential effectful map: the embedding of a Python list
comprehension or loop that stops at the first raised exception. -/
def mapE {α β : Type} (f : α → Except PyErr β) : List α → Except PyErr (List β)
  | [] => .ok []
  | a :: l =>
    match f a with
    | .error e => .error e
    | .ok b =>
      match mapE f l with
      | .error e => .error e
      | .ok bs => .ok (b :: bs)

/-- CPython's sorted(xs, key=f) computes every key up front (raising if
any key computation raises) and then sorts the decorated list. This is
the per-element key computation for key=lambda k: k.sort_name. -/
def decorate (c : PartyChild) : Except PyErr (String × PartyChild) :=
  match c.sort_name with
  | some k => .ok (k, c)
  | none => .error .typeError

/-- Comparison of decorated elements by their sort key, i.e. Python's
case-sensitive str comparison on sort_name values. -/
def keyLe (a b : String × PartyChild) : Prop := strLe a.1 b.1 = true

instance : DecidableRel keyLe :=
  fun a b => inferInstanceAs (Decidable (strLe a.1 b.1 = true))

/-- PartyManager.children:
sorted([p.child for p in self.all()], key=lambda k: k.sort_name). -/
def PartyManager.children (db : DB) : Except PyErr (List PartyChild) :=
  match mapE (Party.child db) db.parties with
  | .error e => .error e
  | .ok cs =>
    match mapE decorate cs with
    | .error e => .error e
    | .ok keyed => .ok ((List.insertionSort keyLe keyed).map Prod.snd)

/-- Concrete data for the listing example of spec §8: Person Alice Zed. -/
def alicePerson : Person :=
  { party_ptr := 1, organization := none, title := "", first_name := "Alice",
    middle_name := some "", last_name := some "Zed" }

/-- Concrete data for the listing example of spec §8: Person Bob Young. -/
def bobPerson : Person :=
  { party_ptr := 2, organization := none, title := "", first_name := "Bob",
    middle_name := some "", last_name := some "Young" }

/-- Concrete data for the listing example of spec §8: Organization Acme. -/
def acmeOrganization : Organization := { party_ptr := 3, name := "Acme" }

/-- Database with the three parties of the spec §8 listing example. -/
def exampleDB : DB :=
  { parties := [1, 2, 3], persons := [alicePerson, bobPerson],
    organizations := [acmeOrganization] }

/-- A Person row specializing party 1 of bothDB. -/
def janeBoth : Person :=
  { party_ptr := 1, organization := none, title := "", first_name := "Jane",
    middle_name := some "", last_name := some "Doe" }

/-- An Organization row also specializing party 1 of bothDB. -/
def acmeBoth : Organization := { party_ptr := 1, name := "Acme" }

/-- Database whose single Party row has both a Person and an
Organization specialization. -/
def bothDB : DB :=
  { parties := [1], persons := [janeBoth], organizations := [acmeBoth] }

/-- Database whose single Party row has no specialization at all. -/
def orphanDB : DB := { parties := [7], persons := [], organizations := [] }

/-- A Person with first_name set and both other name fields null. -/
def janeNullPerson : Person :=
  { party_ptr := 4, organization := none, title := "", first_name := "Jane",
    middle_name := none, last_name := none }

/-- The StreetAddress of the spec §8 search_index example. -/
def mainStreet : StreetAddress :=
  { address := some "1 Main St", city := some "Springfield",
    state := some "IL", zip := some "62701", type := some "main" }

/-- Unfolding of the lexicographic comparison on a pair of cons cells. -/
theorem charListLe_cons_iff (a b : Char) (as bs : List Char) :
    charListLe (a :: as) (b :: bs) = true ↔
      a.toNat < b.toNat ∨ (a.toNat = b.toNat ∧ charListLe as bs = true) := by
  show (if a.toNat < b.toNat then true
        else if b.toNat < a.toNat then false else charListLe as bs) = true ↔ _
  by_cases h : a.toNat < b.toNat
  · simp [h]
  · by_cases h' : b.toNat < a.toNat
    · rw [if_neg h, if_pos h']
      constructor
      · intro hh
        exact absurd hh (by simp)
      · rintro (hlt | ⟨he, -⟩)
        · exact absurd hlt h
        · exact absurd he (by omega)
    · rw [if_neg h, if_neg h']
      constructor
      · intro hr
        exact Or.inr ⟨by omega, hr⟩
      · rintro (hlt | ⟨-, hr⟩)
        · exact absurd hlt h
        · exact hr

/-- The lexicographic comparison is total. -/
theorem charListLe_total : ∀ a b, charListLe a b = true ∨ charListLe b a = true
  | [], _ => Or.inl rfl
  | _ :: _, [] => Or.inr rfl
  | a :: as, b :: bs => by
    rw [charListLe_cons_iff, charListLe_cons_iff]
    rcases Nat.lt_trichotomy a.toNat b.toNat with h | h | h
    · exact Or.inl (Or.inl h)
    · rcases charListLe_total as bs with hr | hr
      · exact Or.inl (Or.inr ⟨h, hr⟩)
      · exact Or.inr (Or.inr ⟨h.symm, hr⟩)
    · exact Or.inr (Or.inl h)

/-- The lexicographic comparison is transitive. -/
theorem charListLe_trans :
    ∀ a b c, charListLe a b = true → charListLe b c = true → charListLe a c = true
  | [], _, _, _, _ => rfl
  | _ :: _, [], _, h, _ => by simp [charListLe] at h
  | _ :: _, _ :: _, [], _, h2 => by simp [charListLe] at h2
  | a :: as, b :: bs, c :: cs, h1, h2 => by
    rw [charListLe_cons_iff] at h1 h2 ⊢
    rcases h1 with h | ⟨he, hr⟩
    · rcases h2 with h' | ⟨he', -⟩
      · exact Or.inl (by omega)
      · exact Or.inl (by omega)
    · rcases h2 with h' | ⟨he', hr'⟩
      · exact Or.inl (by omega)
      · exact Or.inr ⟨by omega, charListLe_trans as bs cs hr hr'⟩

/-- Totality of the embedded Python str comparison. -/
theorem strLe_total (a b : String) : strLe a b = true ∨ strLe b a = true :=
  charListLe_total a.data b.data

/-- Transitivity of the embedded Python str comparison. -/
theorem strLe_trans (a b c : String) :
    strLe a b = true → strLe b c = true → strLe a c = true :=
  charListLe_trans a.data b.data c.data

/-- String append is associative. -/
theorem str_append_assoc (a b c : String) : (a ++ b) ++ c = a ++ (b ++ c) := by
  rcases a with ⟨d1⟩
  rcases b with ⟨d2⟩
  rcases c with ⟨d3⟩
  show String.mk ((d1 ++ d2) ++ d3) = String.mk (d1 ++ (d2 ++ d3))
  rw [List.append_assoc]

/-- Two single trailing spaces collapse into one two-space literal. -/
theorem str_append_space_space (a : String) : (a ++ " ") ++ " " = a ++ "  " := by
  rcases a with ⟨d⟩
  show String.mk (d ++ [' '] ++ [' ']) = String.mk (d ++ [' ', ' '])
  rw [List.append_assoc]
  rfl

/-- Joining a first name with two empty (but non-null) fragments. -/
theorem join_first_empty_empty (first : String) :
    joinWithSpace [some first, some "", some ""] = some (first ++ "  ") := by
  show some ((first ++ " ") ++ (("" ++ " ") ++ "")) = some (first ++ "  ")
  rw [show (("" ++ " ") ++ "" : String) = " " from rfl]
  rw [str_append_space_space]

/-- Every element produced by a successful mapE comes from some element
of the input list. -/
theorem mapE_ok_mem {α β : Type} {f : α → Except PyErr β} :
    ∀ {l : List α} {bs : List β}, mapE f l = .ok bs →
      ∀ b ∈ bs, ∃ a ∈ l, f a = .ok b := by
  intro l
  induction l with
  | nil =>
    intro bs h b hb
    cases h
    simp at hb
  | cons a l ih =>
    intro bs h b hb
    simp only [mapE] at h
    cases hfa : f a with
    | error e => rw [hfa] at h; cases h
    | ok b0 =>
      rw [hfa] at h
      cases hml : mapE f l with
      | error e => rw [hml] at h; cases h
      | ok bs0 =>
        rw [hml] at h
        cases h
        rcases List.mem_cons.mp hb with rfl | hb'
        · exact ⟨a, List.mem_cons_self a l, hfa⟩
        · obtain ⟨a', ha', hfa'⟩ := ih hml b hb'
          exact ⟨a', List.mem_cons_of_mem a ha', hfa'⟩

/-- When a post-inverse g of f exists, a successful mapE maps back onto
its input list. -/
theorem mapE_ok_map {α β : Type} {f : α → Except PyErr β} {g : β → α}
    (hg : ∀ a b, f a = .ok b → g b = a) :
    ∀ {l : List α} {bs : List β}, mapE f l = .ok bs → bs.map g = l := by
  intro l
  induction l with
  | nil =>
    intro bs h
    cases h
    rfl
  | cons a l ih =>
    intro bs h
    simp only [mapE] at h
    cases hfa : f a with
    | error e => rw [hfa] at h; cases h
    | ok b0 =>
      rw [hfa] at h
      cases hml : mapE f l with
      | error e => rw [hml] at h; cases h
      | ok bs0 =>
        rw [hml] at h
        cases h
        simp [hg a b0 hfa, ih hml]

/-- mapE fails whenever f fails on any member of the input list. -/
theorem mapE_error_of_mem {α β : Type} {f : α → Except PyErr β} {a : α} {e : PyErr} :
    ∀ {l : List α}, a ∈ l → f a = .error e → ∃ e2, mapE f l = .error e2 := by
  intro l
  induction l with
  | nil =>
    intro hmem _
    simp at hmem
  | cons hd l ih =>
    intro hmem hfa
    rcases List.mem_cons.mp hmem with rfl | hmem'
    · exact ⟨e, by simp [mapE, hfa]⟩
    · cases hfh : f hd with
      | error e2 => exact ⟨e2, by simp [mapE, hfh]⟩
      | ok b =>
        obtain ⟨e2, hml⟩ := ih hmem' hfa
        exact ⟨e2, by simp [mapE, hfh, hml]⟩

/-- A successful decoration returns the decorated element itself. -/
theorem decorate_ok_snd {c : PartyChild} {kc : String × PartyChild}
    (h : decorate c = .ok kc) : kc.2 = c := by
  unfold decorate at h
  cases hs : c.sort_name with
  | some k => rw [hs] at h; cases h; rfl
  | none => rw [hs] at h; cases h

/-- A successful decoration pairs an element with its own sort_name. -/
theorem decorate_ok_key {c : PartyChild} {kc : String × PartyChild}
    (h : decorate c = .ok kc) : kc.2.sort_name = some kc.1 := by
  unfold decorate at h
  cases hs : c.sort_name with
  | some k => rw [hs] at h; cases h; exact hs
  | none => rw [hs] at h; cases h

/-- super().save() never touches date_added. -/
theorem superSave_date_added (r : DateMixinRecord) (freshId : Nat) :
    (superSave r freshId).date_added = r.date_added := by
  unfold superSave
  cases r.id <;> rfl

/-- super().save() never touches date_modified. -/
theorem superSave_date_modified (r : DateMixinRecord) (freshId : Nat) :
    (superSave r freshId).date_modified = r.date_modified := by
  unfold superSave
  cases r.id <;> rfl

/-- Claim C1: resolving a Party yields exactly one of Person or
Organization — Party.child attempts the Person lookup by shared
identity first, on not-found attempts the Organization lookup, and when
neither specialization exists it fails with a raised error that escapes
to the caller rather than silently returning a default. -/
theorem party_child_resolution (db : DB) (pid : Nat) :
    (∃ p, db.findPerson pid = some p ∧
      Party.child db pid = .ok (.person p)) ∨
    (db.findPerson pid = none ∧ ∃ o, db.findOrganization pid = some o ∧
      Party.child db pid = .ok (.organization o)) ∨
    (db.findPerson pid = none ∧ db.findOrganization pid = none ∧
      Party.child db pid = .error .doesNotExist) := by
  unfold Party.child
  cases hp : db.findPerson pid with
  | some p => exact Or.inl ⟨p, rfl, rfl⟩
  | none =>
    cases ho : db.findOrganization pid with
    | some o => exact Or.inr (Or.inl ⟨rfl, o, rfl, rfl⟩)
    | none => exact Or.inr (Or.inr ⟨rfl, rfl, rfl⟩)

/-- Claim C10 (implicit): when a Party row has both a Person and an
Organization specialization, Party.child deterministically returns the
Person — the Person lookup is attempted first and the Organization
lookup is consulted only on Person not-found. -/
theorem party_child_prefers_person (db : DB) (pid : Nat) (p : Person)
    (o : Organization) (hp : db.findPerson pid = some p)
    (_ho : db.findOrganization pid = some o) :
    Party.child db pid = .ok (.person p) := by
  unfold Party.child
  rw [hp]

/-- Witness for C10: in bothDB, party 1 has both specializations and
resolves to the Person row. -/
theorem party_child_prefers_person_witness :
    Party.child bothDB 1 = .ok (.person janeBoth) :=
  party_child_prefers_person bothDB 1 janeBoth acmeBoth rfl rfl

/-- Counterexample to claim C4 as stated: in bothDB both specializations
of party 1 exist, yet Party.child returns the Person successfully — no
integrity error is surfaced. -/
theorem party_child_both_no_integrity_error :
    bothDB.findPerson 1 = some janeBoth ∧
    bothDB.findOrganization 1 = some acmeBoth ∧
    Party.child bothDB 1 = .ok (.person janeBoth) :=
  ⟨rfl, rfl, rfl⟩

/-- Claim C4 as amended: when a Party row has both a Person and an
Organization specialization, resolution silently returns the Person —
no error of any kind is raised to the caller. -/
theorem party_child_both_silent (db : DB) (pid : Nat) (p : Person)
    (o : Organization) (hp : db.findPerson pid = some p)
    (_ho : db.findOrganization pid = some o) :
    Party.child db pid = .ok (.person p) ∧
    ∀ e, Party.child db pid ≠ .error e := by
  have h : Party.child db pid = .ok (.person p) := by
    unfold Party.child
    rw [hp]
  refine ⟨h, fun e he => ?_⟩
  rw [h] at he
  cases he

/-- Witness for amended C4 at the concrete bothDB. -/
theorem party_child_both_silent_witness :
    Party.child bothDB 1 = .ok (.person janeBoth) ∧
    ∀ e, Party.child bothDB 1 ≠ .error e :=
  party_child_both_silent bothDB 1 janeBoth acmeBoth rfl rfl

/-- Claim C5: a Party that resolves to neither Person nor Organization
never appears in a result of PartyManager.children — the whole listing
operation fails with an error instead of returning a list. -/
theorem children_error_on_unresolvable (db : DB) (pid : Nat) (e : PyErr)
    (hmem : pid ∈ db.parties) (herr : Party.child db pid = .error e) :
    ∃ e2, PartyManager.children db = .error e2 := by
  obtain ⟨e2, hml⟩ := mapE_error_of_mem hmem herr
  refine ⟨e2, ?_⟩
  unfold PartyManager.children
  rw [hml]

/-- Witness for C5: orphanDB stores party 7 with no specialization, and
the listing fails as a whole. -/
theorem children_error_on_unresolvable_witness :
    ∃ e2, PartyManager.children orphanDB = .error e2 :=
  children_error_on_unresolvable orphanDB 7 .doesNotExist (by decide) rfl

/-- Claim C2: when every stored Party resolves and every sort key
computes, PartyManager.children returns the full multiset of resolved
parties ordered non-decreasing by sort_name under case-sensitive
lexicographic string comparison. -/
theorem partyManager_children_sorted (db : DB) (cs : List PartyChild)
    (keyed : List (String × PartyChild))
    (hres : mapE (Party.child db) db.parties = .ok cs)
    (hdec : mapE decorate cs = .ok keyed) :
    ∃ l, PartyManager.children db = .ok l ∧ l.Perm cs ∧
      l.Pairwise (fun a b => ∀ ka kb, PartyChild.sort_name a = some ka →
        PartyChild.sort_name b = some kb → strLe ka kb = true) := by
  refine ⟨(List.insertionSort keyLe keyed).map Prod.snd, ?_, ?_, ?_⟩
  · unfold PartyManager.children
    rw [hres]
    show (match mapE decorate cs with
      | Except.error e => Except.error e
      | Except.ok keyed =>
        Except.ok ((List.insertionSort keyLe keyed).map Prod.snd)) = _
    rw [hdec]
  · have h1 : ((List.insertionSort keyLe keyed).map Prod.snd).Perm
        (keyed.map Prod.snd) :=
      (List.perm_insertionSort keyLe keyed).map Prod.snd
    have h2 : keyed.map Prod.snd = cs :=
      mapE_ok_map (fun c kc h => decorate_ok_snd h) hdec
    rwa [h2] at h1
  · have hsorted : List.Pairwise keyLe (List.insertionSort keyLe keyed) :=
      @List.sorted_insertionSort _ keyLe _
        ⟨fun a b => strLe_total a.1 b.1⟩
        ⟨fun a b c => strLe_trans a.1 b.1 c.1⟩ keyed
    have hkey : ∀ q ∈ List.insertionSort keyLe keyed,
        q.2.sort_name = some q.1 := by
      intro q hq
      have hq' : q ∈ keyed :=
        (List.perm_insertionSort keyLe keyed).mem_iff.mp hq
      obtain ⟨c, -, hc⟩ := mapE_ok_mem hdec q hq'
      exact decorate_ok_key hc
    rw [List.pairwise_map]
    refine List.Pairwise.imp_of_mem ?_ hsorted
    intro a b ha hb hab
    intro ka kb hka hkb
    rw [hkey a ha] at hka
    rw [hkey b hb] at hkb
    have hka' := Option.some.inj hka
    have hkb' := Option.some.inj hkb
    subst hka'
    subst hkb'
    exact hab

/-- Witness for C2 at the spec §8 example database: all three parties
resolve, all keys compute, and the listing is a sorted permutation. -/
theorem partyManager_children_sorted_witness :
    ∃ l, PartyManager.children exampleDB = .ok l ∧
      l.Perm [PartyChild.person alicePerson, PartyChild.person bobPerson,
        PartyChild.organization acmeOrganization] ∧
      l.Pairwise (fun a b => ∀ ka kb, PartyChild.sort_name a = some ka →
        PartyChild.sort_name b = some kb → strLe ka kb = true) :=
  partyManager_children_sorted exampleDB
    [.person alicePerson, .person bobPerson, .organization acmeOrganization]
    [("Alice  Zed", .person alicePerson), ("Bob  Young", .person bobPerson),
      ("Acme", .organization acmeOrganization)]
    rfl rfl

/-- Claim C3: a newly created timestamped record persists the first time
with date_added equal to its creation instant and date_modified null,
and a subsequent save sets date_modified to that update's instant while
leaving date_added unchanged. -/
theorem dateMixin_timestamps (t0 t1 t2 f1 f2 : Nat) (hf : f1 ≠ 0) :
    (DateMixin.save (DateMixin.new t0) t1 f1).date_added = t0 ∧
    (DateMixin.save (DateMixin.new t0) t1 f1).date_modified = none ∧
    (DateMixin.save (DateMixin.save (DateMixin.new t0) t1 f1) t2 f2).date_added
      = t0 ∧
    (DateMixin.save (DateMixin.save (DateMixin.new t0) t1 f1) t2 f2).date_modified
      = some t2 := by
  have h1 : DateMixin.save (DateMixin.new t0) t1 f1 =
      { id := some f1, date_added := t0, date_modified := none } := by
    unfold DateMixin.save
    rw [if_neg (by simp [DateMixin.new, DateMixin.truthyId])]
    rfl
  have hf' : DateMixin.truthyId (some f1) = true := by
    simp [DateMixin.truthyId, hf]
  have h2 : DateMixin.save
      { id := some f1, date_added := t0, date_modified := none } t2 f2 =
      { id := some f1, date_added := t0, date_modified := some t2 } := by
    unfold DateMixin.save
    rw [if_pos hf']
    rfl
  rw [h1, h2]
  exact ⟨rfl, rfl, rfl, rfl⟩

/-- Witness for C3 at concrete instants 5, 6, 9 and fresh keys 1, 2. -/
theorem dateMixin_timestamps_witness :
    (DateMixin.save (DateMixin.new 5) 6 1).date_added = 5 ∧
    (DateMixin.save (DateMixin.new 5) 6 1).date_modified = none ∧
    (DateMixin.save (DateMixin.save (DateMixin.new 5) 6 1) 9 2).date_added = 5 ∧
    (DateMixin.save (DateMixin.save (DateMixin.new 5) 6 1) 9 2).date_modified
      = some 9 :=
  dateMixin_timestamps 5 6 9 1 2 (by decide)

/-- Claim C7: no save ever reassigns date_added — DateMixin.save leaves
the field exactly as it was on every input record. -/
theorem dateMixin_save_preserves_date_added (r : DateMixinRecord)
    (now freshId : Nat) :
    (DateMixin.save r now freshId).date_added = r.date_added := by
  unfold DateMixin.save
  by_cases h : DateMixin.truthyId r.id = true
  · rw [if_pos h, superSave_date_added]
  · rw [if_neg h, superSave_date_added]

/-- Counterexample to claim C6 as stated: a record carrying pre-assigned
primary key 5 while absent from storage is classified as an update on
its first save — date_modified is set to the save instant instead of
being left null. -/
theorem dateMixin_preassigned_id_counterexample :
    specExistsInStorage []
      { id := some 5, date_added := 0, date_modified := none } = false ∧
    (DateMixin.save { id := some 5, date_added := 0, date_modified := none }
      7 1).date_modified = some 7 :=
  ⟨rfl, rfl⟩

/-- Claim C6 as amended: the update-vs-insert classification in
DateMixin.save is decided by Python truthiness of the identity field
(non-null and non-zero), not by a storage-existence check; a truthy id
always takes the update branch and a falsy id always takes the insert
branch. -/
theorem dateMixin_save_classification (r : DateMixinRecord)
    (now freshId : Nat) :
    (DateMixin.truthyId r.id = true →
      (DateMixin.save r now freshId).date_modified = some now) ∧
    (DateMixin.truthyId r.id = false →
      (DateMixin.save r now freshId).date_modified = r.date_modified) := by
  constructor <;> intro h <;> unfold DateMixin.save
  · rw [if_pos h, superSave_date_modified]
  · rw [if_neg (by simp [h]), superSave_date_modified]

/-- Witness for amended C6: a record with pre-assigned id 3 gets
date_modified set on its very first save. -/
theorem dateMixin_save_classification_witness :
    (DateMixin.save { id := some 3, date_added := 0, date_modified := none }
      7 9).date_modified = some 7 :=
  (dateMixin_save_classification
    { id := some 3, date_added := 0, date_modified := none } 7 9).1 rfl

/-- Counterexample to claim C8 as stated: with middle_name and last_name
null, the space-join receives None fragments and errors (Python
TypeError, embedded as none) for both sort_name and search_index
instead of degrading gracefully. -/
theorem person_null_names_error :
    janeNullPerson.middle_name = none ∧ janeNullPerson.last_name = none ∧
    janeNullPerson.sort_name = none ∧ janeNullPerson.search_index = none :=
  ⟨rfl, rfl, rfl, rfl⟩

/-- Claim C8 as amended: for a Person whose middle_name and last_name
are empty strings (non-null), sort_name and search_index evaluate
without error to the first name followed by the two joining spaces;
when either field is null the join errors. -/
theorem person_empty_names_degrade (pid : Nat) (org : Option Nat)
    (ti first : String) :
    Person.sort_name
      { party_ptr := pid, organization := org, title := ti,
        first_name := first, middle_name := some "", last_name := some "" }
      = some (first ++ "  ") ∧
    Person.search_index
      { party_ptr := pid, organization := org, title := ti,
        first_name := first, middle_name := some "", last_name := some "" }
      = some (first ++ "  ") :=
  ⟨join_first_empty_empty first, join_first_empty_empty first⟩

/-- Claim C9: StreetAddress.search_index is the single-space join of
address, city, state and zip, in that order. -/
theorem streetAddress_search_index_spec (sa : StreetAddress)
    (a c st z : String) (ha : sa.address = some a) (hc : sa.city = some c)
    (hs : sa.state = some st) (hz : sa.zip = some z) :
    sa.search_index = some (a ++ " " ++ c ++ " " ++ st ++ " " ++ z) := by
  unfold StreetAddress.search_index
  rw [ha, hc, hs, hz]
  show some ((a ++ " ") ++ ((c ++ " ") ++ ((st ++ " ") ++ z))) = _
  simp [str_append_assoc]

/-- Witness for C9 at the spec §8 example: the search index of
1 Main St, Springfield, IL 62701. -/
theorem streetAddress_search_index_witness :
    mainStreet.search_index = some "1 Main St Springfield IL 62701" :=
  streetAddress_search_index_spec mainStreet
    "1 Main St" "Springfield" "IL" "62701" rfl rfl rfl rfl

end Addressbook
